import Mathlib

/-!
Shallow embedding of `services/launcher/launcher.go` (collection-launch core).

The launcher compiles artifact-collector requests into VQL collector
programs, resolves tool dependencies against the inventory service,
persists a collection session record and enqueues delivery tasks.

External collaborators (the artifact repository's `Compile` /
`PopulateArtifactsVQLCollectorArgs`, the inventory service, the
datastore and the obfuscation transform) live outside this package;
they are modelled explicitly below, either as record-of-functions
parameters or — where noted — from the specification's description of
their contract.  Side effects (inventory tool registration, datastore
writes, task enqueues) are made visible as explicit state and event
traces.
-/

set_option autoImplicit false

namespace Launcher

/-- One environment key/value pair (`actions_proto.VQLEnv`). -/
structure VQLEnv where
  key : String
  value : String
  deriving Repr, DecidableEq

/-- The compiled program sent to a client (`actions_proto.VQLCollectorArgs`).
`opsPerSecond` is a float32 in the source; it is only ever copied, never
computed with, so an abstract numeric carrier suffices. -/
structure VQLCollectorArgs where
  opsPerSecond : Nat
  timeout : Nat
  maxRow : Nat
  env : List VQLEnv
  queries : List String
  tools : List String
  deriving Repr, DecidableEq

/-- A tool descriptor (`artifacts_proto.Tool`): name, content hash, filename,
optional explicit URL, serve-locally flag and filestore path. -/
structure Tool where
  name : String
  hash : String
  filename : String
  url : String
  serveLocally : Bool
  filestorePath : String
  deriving Repr, DecidableEq

/-- A named artifact (`artifacts_proto.Artifact`): its compiled query plan and
the tools it declares. -/
structure Artifact where
  name : String
  queries : List String
  tools : List Tool
  deriving Repr, DecidableEq

/-- The caller's request (`flows_proto.ArtifactCollectorArgs`).  A `nil`
pre-compiled slice in Go is the empty list here. -/
structure ArtifactCollectorArgs where
  clientId : String
  artifacts : List String
  parameters : Option (List VQLEnv)
  allowCustomOverrides : Bool
  urgent : Bool
  opsPerSecond : Nat
  timeout : Nat
  compiledCollectorArgs : List VQLCollectorArgs
  deriving Repr, DecidableEq

/-- Server configuration: the part of `config_proto.Config` the launcher
reads (`Client.ServerUrls`). -/
structure Config where
  serverUrls : List String
  deriving Repr, DecidableEq

/-- The repository collaborator, reduced to the interface the launcher
consumes: `Get` resolves a name to an artifact, `CheckAccess` is the
access-control policy decision for (artifact, principal). -/
structure Repository where
  get : String → Option Artifact
  checkAccess : Config → Artifact → String → Bool

/-- The inventory service's state: the list of registered tool
descriptors, looked up by name. -/
structure Inventory where
  tools : List Tool
  deriving Repr, DecidableEq

/-- `services.GetInventory().GetToolInfo`: look the tool up by name;
`none` models the NotFound error. -/
def getToolInfo (inv : Inventory) (name : String) : Option Tool :=
  inv.tools.find? (fun t => t.name == name)

/-- Modelled from the spec: the inventory collaborator's `AddTool`
registers a descriptor the inventory does not yet know.  The launcher only
calls it after a failed lookup, so first-registration-wins is enforced at
the call site; registration itself is modelled as always succeeding. -/
def addTool (inv : Inventory) (t : Tool) : Inventory :=
  ⟨inv.tools ++ [t]⟩

/-- Error kinds of the launcher (§7 of the spec); the Go source returns
`errors.New` values, classified here by their origin. -/
inductive Err where
  | notFound (msg : String)
  | permissionDenied
  | invalidArgument (msg : String)
  | unconfigured (msg : String)
  | upstream (msg : String)
  deriving Repr, DecidableEq

/-- `Launcher.EnsureToolsDeclared`: for each tool an artifact declares, if
the inventory lookup fails, register the artifact's own descriptor (never
overwriting an existing registration).  Returns the updated inventory and
the trace of descriptors actually registered (the `AddTool` calls). -/
def ensureToolsDeclared : Inventory → List Tool → Inventory × List Tool
  | inv, [] => (inv, [])
  | inv, t :: rest =>
    match getToolInfo inv t.name with
    | some _ => ensureToolsDeclared inv rest
    | none =>
      let r := ensureToolsDeclared (addTool inv t) rest
      (r.1, t :: r.2)

/-- Artifact resolution inside `CompileCollectorArgs`'s loop: when the
request allows custom overrides, try `"Custom." + name` first, then fall
back to the plain name. -/
def resolveArtifact (repo : Repository) (allowCustom : Bool) (name : String) :
    Option Artifact :=
  match (if allowCustom then repo.get ("Custom." ++ name) else none) with
  | some a => some a
  | none => repo.get name

/-- Record one tool reference in the program's referenced-tools list,
keeping the list duplicate-free: a tool already referenced is not
referenced again. -/
def addToolName (tools : List String) (n : String) : List String :=
  if n ∈ tools then tools else tools ++ [n]

/-- Record a batch of tool references, in order, each at most once. -/
def addToolNames (tools : List String) (ns : List String) : List String :=
  ns.foldl addToolName tools

/-- Modelled from the spec: the repository collaborator's
`Compile(artifact, program)` (implemented outside this package) merges the
artifact's compiled query plan into the program with append semantics and
records the artifact's declared tool names among the program's referenced
tools — one reference per distinct tool, as the spec's tool-metadata
property (exactly one HASH/FILENAME/URL triple per distinct tool
referenced) requires. -/
def repositoryCompile (artifact : Artifact) (args : VQLCollectorArgs) :
    VQLCollectorArgs :=
  { args with
      queries := args.queries ++ artifact.queries
      tools := addToolNames args.tools (artifact.tools.map Tool.name) }

/-- Modelled from the spec: the repository collaborator's
`PopulateArtifactsVQLCollectorArgs` resolves transitive artifact
dependencies.  The dependency-resolution logic is owned by the repository;
it is modelled as contributing no additional content. -/
def populateArtifactsVQLCollectorArgs (args : VQLCollectorArgs) :
    VQLCollectorArgs :=
  args

/-- Modelled from the spec: `artifacts.Obfuscate` is an obfuscation
transform owned by an external collaborator, called last before the
program is returned; modelled as the identity transform. -/
def obfuscate (args : VQLCollectorArgs) : VQLCollectorArgs :=
  args

/-- Environment key for a tool's content hash
(`fmt.Sprintf("Tool_%v_HASH", name)`). -/
def hashKey (name : String) : String :=
  "Tool_" ++ name ++ "_HASH"

/-- Environment key for a tool's filename
(`fmt.Sprintf("Tool_%v_FILENAME", name)`). -/
def fileKey (name : String) : String :=
  "Tool_" ++ name ++ "_FILENAME"

/-- Environment key for a tool's download URL
(`fmt.Sprintf("Tool_%v_URL", name)`). -/
def urlKey (name : String) : String :=
  "Tool_" ++ name ++ "_URL"

/-- `AddToolDependency`: fetch the tool's descriptor, append its hash and
filename environment entries, then determine the download URL and append
it.  The Go function mutates the program in place, so on the
no-server-URLs error the hash/filename entries have already been appended;
the embedding therefore returns the (possibly mutated) program alongside
the optional error. -/
def addToolDependency (config : Config) (inv : Inventory) (tool : String)
    (args : VQLCollectorArgs) : Option Err × VQLCollectorArgs :=
  match getToolInfo inv tool with
  | none => (some (Err.notFound ("Tool not found " ++ tool)), args)
  | some ti =>
    let args1 := { args with
      env := args.env ++ [VQLEnv.mk (hashKey ti.name) ti.hash] }
    let args2 := { args1 with
      env := args1.env ++ [VQLEnv.mk (fileKey ti.name) ti.filename] }
    match config.serverUrls with
    | [] => (some (Err.unconfigured "No server URLs configured!"), args2)
    | u0 :: _ =>
      let url :=
        if ti.serveLocally = false ∧ ti.url ≠ "" then ti.url
        else u0 ++ "public/" ++ ti.filestorePath
      (none, { args2 with env := args2.env ++ [VQLEnv.mk (urlKey ti.name) url] })

/-- The loop body of `getDependentTools`, iterating over the program's
referenced tool names (the range expression `vql_collector_args.Tools` is
evaluated once; `AddToolDependency` only appends to `Env`). -/
def getDependentToolsAux (config : Config) (inv : Inventory) :
    VQLCollectorArgs → List String → Option Err × VQLCollectorArgs
  | args, [] => (none, args)
  | args, t :: rest =>
    match addToolDependency config inv t args with
    | (some e, args2) => (some e, args2)
    | (none, args2) => getDependentToolsAux config inv args2 rest

/-- `getDependentTools`: resolve every tool name the program references to
concrete delivery metadata, stopping at the first error. -/
def getDependentTools (config : Config) (inv : Inventory)
    (args : VQLCollectorArgs) : Option Err × VQLCollectorArgs :=
  getDependentToolsAux config inv args args.tools

/-- `addOrReplaceParameter`: linear search of the program's environment by
key; the first entry with a matching key has its value replaced in place.
The Go function's final `env = append(env, param)` writes only the
callee's local slice header and is never observable through the caller's
`vql_collector_args.Env`, so an absent key leaves the caller-visible
environment unchanged. -/
def addOrReplaceParameter (param : VQLEnv) : List VQLEnv → List VQLEnv
  | [] => []
  | item :: rest =>
    if item.key = param.key then { item with value := param.value } :: rest
    else item :: addOrReplaceParameter param rest

/-- `Launcher.AddArtifactCollectorArgs`: merge every request parameter
into the program's environment with `addOrReplaceParameter`.  The Go
function always returns nil. -/
def addArtifactCollectorArgs (args : VQLCollectorArgs)
    (req : ArtifactCollectorArgs) : VQLCollectorArgs :=
  match req.parameters with
  | none => args
  | some ps =>
    { args with env := ps.foldl (fun e p => addOrReplaceParameter p e) args.env }

/-- The fresh program `CompileCollectorArgs` starts from: the request's
resource limits and the fixed row cap of 1000. -/
def initialCollectorArgs (req : ArtifactCollectorArgs) : VQLCollectorArgs :=
  { opsPerSecond := req.opsPerSecond
    timeout := req.timeout
    maxRow := 1000
    env := []
    queries := []
    tools := [] }

/-- The per-artifact loop of `CompileCollectorArgs`: resolve each name
(custom override first), enforce access control, merge the artifact's
plan, and declare its tools to the inventory.  Returns the program (or the
first error), the resulting inventory, and the trace of tool
registrations performed. -/
def compileLoop (config : Config) (principal : String) (repo : Repository)
    (allowCustom : Bool) :
    Inventory → VQLCollectorArgs → List String →
      Except Err VQLCollectorArgs × Inventory × List Tool
  | inv, acc, [] => (Except.ok acc, inv, [])
  | inv, acc, name :: rest =>
    match resolveArtifact repo allowCustom name with
    | none => (Except.error (Err.notFound ("Unknown artifact " ++ name)), inv, [])
    | some artifact =>
      if repo.checkAccess config artifact principal then
        let p := ensureToolsDeclared inv artifact.tools
        let r := compileLoop config principal repo allowCustom p.1
          (repositoryCompile artifact acc) rest
        (r.1, r.2.1, p.2 ++ r.2.2)
      else
        (Except.error Err.permissionDenied, inv, [])

/-- `Launcher.CompileCollectorArgs`: compile every named artifact into one
program, populate dependencies, apply parameter overrides, resolve tool
metadata, and obfuscate.  Returns the result, the resulting inventory
state and the trace of tool registrations performed with the inventory. -/
def compileCollectorArgs (config : Config) (principal : String)
    (repo : Repository) (inv : Inventory) (req : ArtifactCollectorArgs) :
    Except Err VQLCollectorArgs × Inventory × List Tool :=
  match compileLoop config principal repo req.allowCustomOverrides inv
      (initialCollectorArgs req) req.artifacts with
  | (Except.error e, inv2, regs) => (Except.error e, inv2, regs)
  | (Except.ok acc, inv2, regs) =>
    let acc1 := populateArtifactsVQLCollectorArgs acc
    let acc2 := addArtifactCollectorArgs acc1 req
    match getDependentTools config inv2 acc2 with
    | (some e, _) => (Except.error e, inv2, regs)
    | (none, acc3) => (Except.ok (obfuscate acc3), inv2, regs)

/-- Lifecycle state of a collection session
(`flows_proto.ArtifactCollectorContext` state enum; a new session is
created RUNNING). -/
inductive FlowState where
  | UNSET
  | RUNNING
  | FINISHED
  | ERROR
  deriving Repr, DecidableEq

/-- The durable collection-session record
(`flows_proto.ArtifactCollectorContext`): session identifier, creation
time in microseconds, lifecycle state, the original request and the
target client. -/
structure ArtifactCollectorContext where
  sessionId : String
  createTime : Nat
  state : FlowState
  request : ArtifactCollectorArgs
  clientId : String
  deriving Repr, DecidableEq

/-- Modelled from the spec: `constants.ProcessVQLResponses` (defined
outside this package) is the fixed routing tag identifying "process
compiled program" as the handler of a delivery task; its concrete value
is immaterial to the launcher. -/
def ProcessVQLResponses : Nat := 1

/-- A delivery task for a client (`crypto_proto.GrrMessage`): session
identifier, routing tag, compiled-program payload and urgency flag. -/
structure GrrMessage where
  sessionId : String
  requestId : Nat
  vqlClientAction : VQLCollectorArgs
  urgent : Bool
  deriving Repr, DecidableEq

/-- A record written to the durable store: either a collection-session
record or the provenance list of enqueued tasks. -/
inductive StoreRecord where
  | context (c : ArtifactCollectorContext)
  | provenance (items : List GrrMessage)
  deriving Repr, DecidableEq

/-- One observable interaction with the durable store, with its success
flag: a `SetSubject` write at a path, or a `QueueMessageForClient`
enqueue for a client. -/
inductive StoreEvent where
  | setSubject (path : String) (record : StoreRecord) (ok : Bool)
  | queue (clientId : String) (task : GrrMessage) (ok : Bool)
  deriving Repr, DecidableEq

/-- The datastore collaborator's behaviour: whether `GetDB` succeeds,
and which writes/enqueues succeed. -/
structure DataStore where
  getDBOk : Bool
  setSubjectOk : String → Bool
  queueOk : String → GrrMessage → Bool

/-- Modelled from the spec: `paths.NewFlowPathManager(clientId, sessionId).Path()`
(implemented outside this package) derives the session record's datastore
path deterministically from the client and session identifiers. -/
def flowPath (clientId sessionId : String) : String :=
  "/clients/" ++ clientId ++ "/collections/" ++ sessionId

/-- Modelled from the spec: `paths.NewFlowPathManager(...).Task().Path()`
derives the task-provenance path from the session path. -/
def flowTaskPath (clientId sessionId : String) : String :=
  flowPath clientId sessionId ++ "/task"

/-- The task-enqueue loop of `ScheduleArtifactCollectionFromCollectorArgs`:
one `GrrMessage` per compiled program, tagged with the session identifier
and the fixed routing tag, urgency copied from the request; abort on the
first enqueue failure (earlier enqueues are not rolled back).  Returns the
optional error, the list of successfully enqueued tasks, and the event
trace of enqueue attempts. -/
def enqueueTasks (ds : DataStore) (clientId sessionId : String)
    (urgent : Bool) :
    List VQLCollectorArgs → Option Err × List GrrMessage × List StoreEvent
  | [] => (none, [], [])
  | arg :: rest =>
    let task : GrrMessage :=
      { sessionId := sessionId
        requestId := ProcessVQLResponses
        vqlClientAction := arg
        urgent := urgent }
    if ds.queueOk clientId task then
      let r := enqueueTasks ds clientId sessionId urgent rest
      (r.1, task :: r.2.1, StoreEvent.queue clientId task true :: r.2.2)
    else
      (some (Err.upstream "queue message failed"), [],
        [StoreEvent.queue clientId task false])

/-- `ScheduleArtifactCollectionFromCollectorArgs`: validate the client
identifier, build the session record, persist it, enqueue one task per
compiled program, then persist the provenance record.  The generated
session identifier (`NewFlowId`, which draws on the clock and
cryptographic randomness) and the current time are taken as parameters;
the returned trace lists every datastore interaction in order. -/
def scheduleArtifactCollectionFromCollectorArgs (ds : DataStore)
    (req : ArtifactCollectorArgs) (sessionId : String) (now : Nat)
    (argsList : List VQLCollectorArgs) :
    Except Err String × List StoreEvent :=
  if req.clientId = "" then
    (Except.error (Err.invalidArgument "Client id not provided."), [])
  else
    let ctx : ArtifactCollectorContext :=
      { sessionId := sessionId
        createTime := now
        state := FlowState.RUNNING
        request := req
        clientId := req.clientId }
    if ds.getDBOk then
      let p := flowPath req.clientId sessionId
      if ds.setSubjectOk p then
        let ev0 := StoreEvent.setSubject p (StoreRecord.context ctx) true
        let r := enqueueTasks ds req.clientId sessionId req.urgent argsList
        match r.1 with
        | some e => (Except.error e, ev0 :: r.2.2)
        | none =>
          let tp := flowTaskPath req.clientId sessionId
          let evProv :=
            StoreEvent.setSubject tp (StoreRecord.provenance r.2.1)
              (ds.setSubjectOk tp)
          if ds.setSubjectOk tp then
            (Except.ok sessionId, ev0 :: r.2.2 ++ [evProv])
          else
            (Except.error (Err.upstream "provenance write failed"),
              ev0 :: r.2.2 ++ [evProv])
      else
        (Except.error (Err.upstream "session persist failed"),
          [StoreEvent.setSubject p (StoreRecord.context ctx) false])
    else
      (Except.error (Err.upstream "datastore unavailable"), [])

/-- `Launcher.ScheduleArtifactCollection`: when the request carries no
pre-compiled program, invoke the compiler and schedule its single result;
otherwise schedule the caller-supplied programs directly.  Returns the
scheduling result, the resulting inventory state, the trace of tool
registrations, and the datastore event trace. -/
def scheduleArtifactCollection (config : Config) (ds : DataStore)
    (principal : String) (repo : Repository) (inv : Inventory)
    (req : ArtifactCollectorArgs) (sessionId : String) (now : Nat) :
    Except Err String × Inventory × List Tool × List StoreEvent :=
  match req.compiledCollectorArgs with
  | [] =>
    match compileCollectorArgs config principal repo inv req with
    | (Except.error e, inv2, regs) => (Except.error e, inv2, regs, [])
    | (Except.ok compiled, inv2, regs) =>
      let r := scheduleArtifactCollectionFromCollectorArgs ds req sessionId
        now [compiled]
      (r.1, inv2, regs, r.2)
  | a :: rest =>
    let r := scheduleArtifactCollectionFromCollectorArgs ds req sessionId
      now (a :: rest)
    (r.1, inv, [], r.2)

/-! ### Helper lemmas -/

lemma addOrReplaceParameter_not_found (param : VQLEnv) :
    ∀ env : List VQLEnv, (∀ e ∈ env, e.key ≠ param.key) →
      addOrReplaceParameter param env = env := by
  intro env h
  induction env with
  | nil => rfl
  | cons e rest ih =>
    have hne : e.key ≠ param.key := h e (List.mem_cons_self _ _)
    simp only [addOrReplaceParameter, if_neg hne]
    exact congrArg (e :: ·) (ih fun x hx => h x (List.mem_cons_of_mem _ hx))

lemma addOrReplaceParameter_found (param : VQLEnv) :
    ∀ (pre : List VQLEnv) (e : VQLEnv) (post : List VQLEnv),
      (∀ x ∈ pre, x.key ≠ param.key) → e.key = param.key →
      addOrReplaceParameter param (pre ++ e :: post)
        = pre ++ { e with value := param.value } :: post := by
  intro pre
  induction pre with
  | nil =>
    intro e post _ he
    simp [addOrReplaceParameter, he]
  | cons x pre ih =>
    intro e post hpre he
    have hx : x.key ≠ param.key := hpre x (List.mem_cons_self _ _)
    simp only [List.cons_append, addOrReplaceParameter, if_neg hx]
    exact congrArg (x :: ·)
      (ih e post (fun y hy => hpre y (List.mem_cons_of_mem _ hy)) he)

/-! ### Claim theorems -/

/-- C3: for every request whose target client identifier is the empty
string, scheduling fails with an InvalidArgument error and the datastore
trace is empty — no session record is written and no delivery task is
enqueued, so the failure happens before any persistence. -/
theorem c3_empty_client_id (ds : DataStore) (req : ArtifactCollectorArgs)
    (sessionId : String) (now : Nat) (argsList : List VQLCollectorArgs)
    (h : req.clientId = "") :
    scheduleArtifactCollectionFromCollectorArgs ds req sessionId now argsList
      = (Except.error (Err.invalidArgument "Client id not provided."), []) := by
  simp [scheduleArtifactCollectionFromCollectorArgs, h]

def c3Req : ArtifactCollectorArgs :=
  ⟨"", ["Foo"], none, false, true, 0, 0, []⟩

def c3Store : DataStore :=
  ⟨true, fun _ => true, fun _ _ => true⟩

/-- Witness for C3 at a concrete request with an empty client id. -/
theorem c3_empty_client_id_witness :
    scheduleArtifactCollectionFromCollectorArgs c3Store c3Req "F.1" 7
        [initialCollectorArgs c3Req]
      = (Except.error (Err.invalidArgument "Client id not provided."), []) :=
  c3_empty_client_id c3Store c3Req "F.1" 7 [initialCollectorArgs c3Req] rfl

/-- C4: merging one override pair searches the program's environment by
key.  If no entry carries the key, the environment is unchanged (the
override is silently dropped, never appended); if an entry carries the
key, the first such entry has its value replaced in place and everything
else is untouched. -/
theorem c4_override_merge (param : VQLEnv) (env : List VQLEnv) :
    ((∀ e ∈ env, e.key ≠ param.key) → addOrReplaceParameter param env = env)
    ∧ (∀ (pre : List VQLEnv) (e : VQLEnv) (post : List VQLEnv),
        env = pre ++ e :: post →
        (∀ x ∈ pre, x.key ≠ param.key) → e.key = param.key →
        addOrReplaceParameter param env
          = pre ++ { e with value := param.value } :: post) := by
  refine ⟨addOrReplaceParameter_not_found param env, ?_⟩
  intro pre e post heq hpre he
  rw [heq]
  exact addOrReplaceParameter_found param pre e post hpre he

/-- Witness for C4: the unknown key "z" is dropped; the known key "k" has
the first matching entry's value replaced in place. -/
theorem c4_override_merge_witness :
    addOrReplaceParameter (VQLEnv.mk "z" "v") [VQLEnv.mk "a" "1", VQLEnv.mk "k" "2"]
      = [VQLEnv.mk "a" "1", VQLEnv.mk "k" "2"]
    ∧ addOrReplaceParameter (VQLEnv.mk "k" "v")
        [VQLEnv.mk "a" "1", VQLEnv.mk "k" "2", VQLEnv.mk "k" "3"]
      = [VQLEnv.mk "a" "1", VQLEnv.mk "k" "v", VQLEnv.mk "k" "3"] := by
  constructor
  · exact (c4_override_merge (VQLEnv.mk "z" "v") _).1 (by decide)
  · exact (c4_override_merge (VQLEnv.mk "k" "v") _).2
      [VQLEnv.mk "a" "1"] (VQLEnv.mk "k" "2") [VQLEnv.mk "k" "3"]
      rfl (by decide) rfl

/-- C8: applying the same parameter override twice yields exactly the same
environment as applying it once — the override merge is idempotent. -/
theorem c8_override_idempotent (param : VQLEnv) (env : List VQLEnv) :
    addOrReplaceParameter param (addOrReplaceParameter param env)
      = addOrReplaceParameter param env := by
  induction env with
  | nil => rfl
  | cons e rest ih =>
    by_cases h : e.key = param.key
    · simp [addOrReplaceParameter, h]
    · simp only [addOrReplaceParameter, if_neg h]
      exact congrArg (e :: ·) ih

/-- C6: when the tool descriptor is found and at least one server URL is
configured, `AddToolDependency` succeeds and appends the HASH, FILENAME
and URL entries, where the URL is the descriptor's explicit URL exactly
when serve-locally is false and the explicit URL is non-empty, and
otherwise is the first configured server URL concatenated with "public/"
and the descriptor's filestore path. -/
theorem c6_tool_url_selection (config : Config) (inv : Inventory)
    (toolName : String) (args : VQLCollectorArgs) (ti : Tool)
    (u0 : String) (us : List String)
    (hti : getToolInfo inv toolName = some ti)
    (hurls : config.serverUrls = u0 :: us) :
    addToolDependency config inv toolName args
      = (none, { args with env := args.env ++
          [VQLEnv.mk (hashKey ti.name) ti.hash,
           VQLEnv.mk (fileKey ti.name) ti.filename,
           VQLEnv.mk (urlKey ti.name)
             (if ti.serveLocally = false ∧ ti.url ≠ "" then ti.url
              else u0 ++ "public/" ++ ti.filestorePath)] }) := by
  simp [addToolDependency, hti, hurls]

def c6Tool : Tool := ⟨"t", "h", "f", "https://third.party/t", false, "p"⟩

/-- Witness for C6: a descriptor with serve-locally = false and a
non-empty explicit URL resolves to that explicit URL. -/
theorem c6_tool_url_selection_witness :
    addToolDependency ⟨["https://s/"]⟩ ⟨[c6Tool]⟩ "t"
        (initialCollectorArgs ⟨"C.1", [], none, false, false, 0, 0, []⟩)
      = (none, { initialCollectorArgs ⟨"C.1", [], none, false, false, 0, 0, []⟩ with
          env := [VQLEnv.mk "Tool_t_HASH" "h",
                  VQLEnv.mk "Tool_t_FILENAME" "f",
                  VQLEnv.mk "Tool_t_URL" "https://third.party/t"] }) := by
  have h := c6_tool_url_selection ⟨["https://s/"]⟩ ⟨[c6Tool]⟩ "t"
    (initialCollectorArgs ⟨"C.1", [], none, false, false, 0, 0, []⟩)
    c6Tool "https://s/" [] rfl rfl
  simpa [c6Tool, hashKey, fileKey, urlKey, initialCollectorArgs] using h

/-- C10: calling `AddToolDependency` for a tool the inventory knows while
no server URLs are configured returns an error, but the program's
environment has already been extended with the tool's HASH and FILENAME
entries — the error branch does not leave the program unchanged. -/
theorem c10_error_after_mutation (config : Config) (inv : Inventory)
    (toolName : String) (args : VQLCollectorArgs) (ti : Tool)
    (hti : getToolInfo inv toolName = some ti)
    (hurls : config.serverUrls = []) :
    addToolDependency config inv toolName args
      = (some (Err.unconfigured "No server URLs configured!"),
         { args with env := args.env ++
             [VQLEnv.mk (hashKey ti.name) ti.hash,
              VQLEnv.mk (fileKey ti.name) ti.filename] })
    ∧ args.env ++ [VQLEnv.mk (hashKey ti.name) ti.hash,
         VQLEnv.mk (fileKey ti.name) ti.filename] ≠ args.env := by
  constructor
  · simp [addToolDependency, hti, hurls]
  · intro h
    have hlen := congrArg List.length h
    simp [List.length_append] at hlen

def c10Tool : Tool := ⟨"t", "h", "f", "", true, "p"⟩

/-- Witness for C10 at a concrete inventory with no configured server
URLs: the call errors, yet the returned program carries the freshly
appended HASH and FILENAME entries. -/
theorem c10_error_after_mutation_witness :
    addToolDependency ⟨[]⟩ ⟨[c10Tool]⟩ "t"
        (initialCollectorArgs ⟨"C.1", [], none, false, false, 0, 0, []⟩)
      = (some (Err.unconfigured "No server URLs configured!"),
         { initialCollectorArgs ⟨"C.1", [], none, false, false, 0, 0, []⟩ with
           env := [VQLEnv.mk "Tool_t_HASH" "h",
                   VQLEnv.mk "Tool_t_FILENAME" "f"] })
    ∧ [VQLEnv.mk "Tool_t_HASH" "h", VQLEnv.mk "Tool_t_FILENAME" "f"]
        ≠ ([] : List VQLEnv) := by
  have h := c10_error_after_mutation ⟨[]⟩ ⟨[c10Tool]⟩ "t"
    (initialCollectorArgs ⟨"C.1", [], none, false, false, 0, 0, []⟩)
    c10Tool rfl rfl
  constructor
  · exact (by simpa [c10Tool, hashKey, fileKey, initialCollectorArgs] using h.1)
  · exact (by simp [c10Tool, hashKey, fileKey])

/-- The compiled-program payloads of the enqueue events of a datastore
trace, in order. -/
def queuedPrograms (evs : List StoreEvent) : List VQLCollectorArgs :=
  evs.filterMap fun ev =>
    match ev with
    | StoreEvent.queue _ task _ => some task.vqlClientAction
    | _ => none

lemma enqueueTasks_all_ok (ds : DataStore) (clientId sessionId : String)
    (urgent : Bool) (hq : ∀ cid task, ds.queueOk cid task = true) :
    ∀ argsList : List VQLCollectorArgs,
      (enqueueTasks ds clientId sessionId urgent argsList).1 = none
      ∧ queuedPrograms (enqueueTasks ds clientId sessionId urgent argsList).2.2
          = argsList := by
  intro argsList
  induction argsList with
  | nil => exact ⟨rfl, rfl⟩
  | cons a rest ih =>
    simp only [enqueueTasks, hq, if_true]
    exact ⟨ih.1, by simp [queuedPrograms] at ih ⊢; exact ih.2⟩

lemma scheduleFrom_trace_shape (ds : DataStore) (req : ArtifactCollectorArgs)
    (sessionId : String) (now : Nat) (argsList : List VQLCollectorArgs) :
    (scheduleArtifactCollectionFromCollectorArgs ds req sessionId now argsList).2 = []
    ∨ ((scheduleArtifactCollectionFromCollectorArgs ds req sessionId now argsList).2
        = [StoreEvent.setSubject (flowPath req.clientId sessionId)
            (StoreRecord.context
              ⟨sessionId, now, FlowState.RUNNING, req, req.clientId⟩) false]
       ∧ ds.setSubjectOk (flowPath req.clientId sessionId) = false)
    ∨ (∃ tl,
        (scheduleArtifactCollectionFromCollectorArgs ds req sessionId now argsList).2
          = StoreEvent.setSubject (flowPath req.clientId sessionId)
              (StoreRecord.context
                ⟨sessionId, now, FlowState.RUNNING, req, req.clientId⟩) true :: tl
        ∧ ds.setSubjectOk (flowPath req.clientId sessionId) = true) := by
  by_cases h1 : req.clientId = ""
  · left; simp [scheduleArtifactCollectionFromCollectorArgs, h1]
  · by_cases h2 : ds.getDBOk
    · by_cases h3 : ds.setSubjectOk (flowPath req.clientId sessionId)
      · right; right
        cases hr : (enqueueTasks ds req.clientId sessionId req.urgent argsList).1 with
        | some e =>
          exact ⟨(enqueueTasks ds req.clientId sessionId req.urgent argsList).2.2,
            by simp [scheduleArtifactCollectionFromCollectorArgs, h1, h2, h3, hr], h3⟩
        | none =>
          by_cases h4 : ds.setSubjectOk (flowTaskPath req.clientId sessionId)
          · exact ⟨(enqueueTasks ds req.clientId sessionId req.urgent argsList).2.2
                ++ [StoreEvent.setSubject (flowTaskPath req.clientId sessionId)
                     (StoreRecord.provenance
                       (enqueueTasks ds req.clientId sessionId req.urgent argsList).2.1)
                     true],
              by simp [scheduleArtifactCollectionFromCollectorArgs, h1, h2, h3, hr, h4],
              h3⟩
          · exact ⟨(enqueueTasks ds req.clientId sessionId req.urgent argsList).2.2
                ++ [StoreEvent.setSubject (flowTaskPath req.clientId sessionId)
                     (StoreRecord.provenance
                       (enqueueTasks ds req.clientId sessionId req.urgent argsList).2.1)
                     false],
              by simp [scheduleArtifactCollectionFromCollectorArgs, h1, h2, h3, hr, h4],
              h3⟩
      · right; left
        refine ⟨by simp [scheduleArtifactCollectionFromCollectorArgs, h1, h2, h3], ?_⟩
        simpa using h3
    · left; simp [scheduleArtifactCollectionFromCollectorArgs, h1, h2]

/-- C2: in every scheduling call, any enqueue event in the datastore trace
is preceded by a successful persist of the session record at the flow
path; and when that persist fails, no enqueue event occurs at all, so no
enqueued task can reference a session that was never persisted. -/
theorem c2_session_persisted_before_enqueue (ds : DataStore)
    (req : ArtifactCollectorArgs) (sessionId : String) (now : Nat)
    (argsList : List VQLCollectorArgs) :
    (∀ (i : Nat) (cid : String) (task : GrrMessage) (ok : Bool),
      ((scheduleArtifactCollectionFromCollectorArgs ds req sessionId now argsList).2)[i]?
        = some (StoreEvent.queue cid task ok) →
      ∃ j, j < i ∧
        ((scheduleArtifactCollectionFromCollectorArgs ds req sessionId now argsList).2)[j]?
          = some (StoreEvent.setSubject (flowPath req.clientId sessionId)
              (StoreRecord.context
                ⟨sessionId, now, FlowState.RUNNING, req, req.clientId⟩) true))
    ∧ (ds.setSubjectOk (flowPath req.clientId sessionId) = false →
        ∀ (i : Nat) (cid : String) (task : GrrMessage) (ok : Bool),
          ((scheduleArtifactCollectionFromCollectorArgs ds req sessionId now argsList).2)[i]?
            ≠ some (StoreEvent.queue cid task ok)) := by
  rcases scheduleFrom_trace_shape ds req sessionId now argsList with
    hsh | ⟨hsh, _⟩ | ⟨tl, hsh, hss⟩
  · constructor
    · intro i cid task ok hi; rw [hsh] at hi; simp at hi
    · intro _ i cid task ok hi; rw [hsh] at hi; simp at hi
  · constructor
    · intro i cid task ok hi; rw [hsh] at hi
      cases i with
      | zero => simp at hi
      | succ k => simp at hi
    · intro _ i cid task ok hi; rw [hsh] at hi
      cases i with
      | zero => simp at hi
      | succ k => simp at hi
  · constructor
    · intro i cid task ok hi; rw [hsh] at hi
      cases i with
      | zero => simp at hi
      | succ k =>
        refine ⟨0, Nat.succ_pos k, ?_⟩
        rw [hsh]
        simp
    · intro hfail
      rw [hss] at hfail
      simp at hfail

def c2Store : DataStore := ⟨true, fun _ => true, fun _ _ => true⟩

def c2Req : ArtifactCollectorArgs :=
  ⟨"C.1", ["Foo"], none, false, false, 0, 0, []⟩

def c2Prog : VQLCollectorArgs := ⟨0, 0, 1000, [], ["q"], []⟩

/-- Witness for C2: in a concrete all-succeeding run with one program, the
enqueue event at index 1 is preceded by the successful session persist at
index 0. -/
theorem c2_session_persisted_before_enqueue_witness :
    ∃ j, j < 1 ∧
      ((scheduleArtifactCollectionFromCollectorArgs c2Store c2Req "F.1" 7 [c2Prog]).2)[j]?
        = some (StoreEvent.setSubject (flowPath c2Req.clientId "F.1")
            (StoreRecord.context
              ⟨"F.1", 7, FlowState.RUNNING, c2Req, c2Req.clientId⟩) true) :=
  (c2_session_persisted_before_enqueue c2Store c2Req "F.1" 7 [c2Prog]).1
    1 "C.1" ⟨"F.1", ProcessVQLResponses, c2Prog, false⟩ true (by decide)

/-- C9: a request that carries a non-empty pre-compiled program list never
invokes the compiler — the outcome is a function of the datastore and the
request alone (the repository and inventory arguments do not appear on the
right-hand side), the inventory is returned unchanged, no tool
registration occurs — and, when every datastore operation succeeds, the
enqueued payloads are exactly the caller-supplied programs. -/
theorem c9_precompiled_skips_compiler (config : Config) (ds : DataStore)
    (principal : String) (repo : Repository) (inv : Inventory)
    (req : ArtifactCollectorArgs) (sessionId : String) (now : Nat)
    (a : VQLCollectorArgs) (rest : List VQLCollectorArgs)
    (h : req.compiledCollectorArgs = a :: rest) :
    scheduleArtifactCollection config ds principal repo inv req sessionId now
      = ((scheduleArtifactCollectionFromCollectorArgs ds req sessionId now
            req.compiledCollectorArgs).1,
         inv, [],
         (scheduleArtifactCollectionFromCollectorArgs ds req sessionId now
            req.compiledCollectorArgs).2)
    ∧ (req.clientId ≠ "" → ds.getDBOk = true →
        ds.setSubjectOk (flowPath req.clientId sessionId) = true →
        (∀ cid task, ds.queueOk cid task = true) →
        queuedPrograms
            (scheduleArtifactCollectionFromCollectorArgs ds req sessionId now
              req.compiledCollectorArgs).2
          = req.compiledCollectorArgs) := by
  constructor
  · simp [scheduleArtifactCollection, h]
  · intro h1 h2 h3 hq
    have he := enqueueTasks_all_ok ds req.clientId sessionId req.urgent hq
      req.compiledCollectorArgs
    by_cases h4 : ds.setSubjectOk (flowTaskPath req.clientId sessionId) <;>
      simp [scheduleArtifactCollectionFromCollectorArgs, h1, h2, h3, h4, he.1,
        queuedPrograms] <;>
      simpa [queuedPrograms] using he.2

def c9Store : DataStore := ⟨true, fun _ => true, fun _ _ => true⟩

def c9Prog : VQLCollectorArgs := ⟨0, 0, 1000, [], ["q"], []⟩

def c9Req : ArtifactCollectorArgs :=
  ⟨"C.1", ["Foo"], none, false, false, 0, 0, [c9Prog]⟩

def c9Repo : Repository := ⟨fun _ => none, fun _ _ _ => false⟩

/-- Witness for C9: with a concrete pre-compiled request against an
all-succeeding store, the enqueued payloads are exactly the supplied
programs. -/
theorem c9_precompiled_skips_compiler_witness :
    queuedPrograms
        (scheduleArtifactCollectionFromCollectorArgs c9Store c9Req "F.1" 7
          c9Req.compiledCollectorArgs).2
      = c9Req.compiledCollectorArgs :=
  (c9_precompiled_skips_compiler ⟨[]⟩ c9Store "admin" c9Repo ⟨[]⟩ c9Req "F.1" 7
      c9Prog [] rfl).2
    (by decide) rfl rfl (fun _ _ => rfl)

/-- Tool declared by artifact "A" in the C1 scenario, unknown to the
inventory. -/
def c1Tool : Tool := ⟨"t", "h", "f", "", true, "p"⟩

/-- Known artifact "A" of the C1 scenario: it declares `c1Tool`. -/
def c1ArtA : Artifact := ⟨"A", ["q1"], [c1Tool]⟩

/-- Repository of the C1 scenario: it knows only "A". -/
def c1Repo : Repository :=
  ⟨fun n => if n = "A" then some c1ArtA else none, fun _ _ _ => true⟩

/-- Request of the C1 scenario: known "A" first, unknown "B" second. -/
def c1Req : ArtifactCollectorArgs :=
  ⟨"C.1", ["A", "B"], none, false, false, 0, 0, []⟩

/-- C1 counterexample: a request naming the unknown artifact "B" after
the known artifact "A" does fail with NotFound, but a tool registration
with the inventory has already been performed while processing "A" — the
registration trace is `[c1Tool]`, not empty, refuting "performs no tool
registration". -/
theorem c1_counterexample :
    (compileCollectorArgs ⟨["https://s/"]⟩ "admin" c1Repo ⟨[]⟩ c1Req).1
      = Except.error (Err.notFound "Unknown artifact B")
    ∧ (compileCollectorArgs ⟨["https://s/"]⟩ "admin" c1Repo ⟨[]⟩ c1Req).2.2
      = [c1Tool]
    ∧ [c1Tool] ≠ ([] : List Tool) :=
  ⟨rfl, rfl, by simp⟩

lemma compileLoop_unknown (config : Config) (principal : String)
    (repo : Repository) (allow : Bool) (u : String) (post : List String)
    (hu : resolveArtifact repo allow u = none) :
    ∀ (pre : List String) (inv : Inventory) (acc : VQLCollectorArgs),
      (∀ n ∈ pre, ∃ a, resolveArtifact repo allow n = some a
          ∧ repo.checkAccess config a principal = true) →
      compileLoop config principal repo allow inv acc (pre ++ u :: post)
        = (Except.error (Err.notFound ("Unknown artifact " ++ u)),
           (compileLoop config principal repo allow inv acc pre).2.1,
           (compileLoop config principal repo allow inv acc pre).2.2) := by
  intro pre
  induction pre with
  | nil =>
    intro inv acc _
    simp [compileLoop, hu]
  | cons n pre ih =>
    intro inv acc hpre
    obtain ⟨a, ha, hacc⟩ := hpre n (List.mem_cons_self _ _)
    have hrest : ∀ m ∈ pre, ∃ b, resolveArtifact repo allow m = some b
        ∧ repo.checkAccess config b principal = true :=
      fun m hm => hpre m (List.mem_cons_of_mem _ hm)
    simp only [List.cons_append, compileLoop, ha, hacc, if_true, List.append_eq]
    rw [ih _ _ hrest]

/-- C1 amended: when a request names an unknown artifact and every
artifact listed before the first unknown one resolves and passes the
access check, `CompileCollectorArgs` fails with a NotFound error naming
that artifact; the tool registrations performed are exactly those of the
preceding known artifacts (none from the unknown artifact onward), and
when the unknown artifact comes first, no tool registration occurs at
all. -/
theorem c1_unknown_artifact_amended (config : Config) (principal : String)
    (repo : Repository) (inv : Inventory) (req : ArtifactCollectorArgs)
    (pre : List String) (u : String) (post : List String)
    (hreq : req.artifacts = pre ++ u :: post)
    (hpre : ∀ n ∈ pre, ∃ a, resolveArtifact repo req.allowCustomOverrides n = some a
        ∧ repo.checkAccess config a principal = true)
    (hu : resolveArtifact repo req.allowCustomOverrides u = none) :
    (compileCollectorArgs config principal repo inv req).1
      = Except.error (Err.notFound ("Unknown artifact " ++ u))
    ∧ (compileCollectorArgs config principal repo inv req).2.2
      = (compileLoop config principal repo req.allowCustomOverrides inv
          (initialCollectorArgs req) pre).2.2
    ∧ (pre = [] → (compileCollectorArgs config principal repo inv req).2.2 = []) := by
  have h := compileLoop_unknown config principal repo req.allowCustomOverrides u
    post hu pre inv (initialCollectorArgs req) hpre
  unfold compileCollectorArgs
  rw [hreq, h]
  refine ⟨rfl, rfl, ?_⟩
  intro hnil
  subst hnil
  simp [compileLoop]

/-- Witness for the amended C1 at the concrete C1 scenario: the call fails
with NotFound for "B" and its registration trace is exactly that of
compiling the known prefix `["A"]` alone. -/
theorem c1_unknown_artifact_amended_witness :
    (compileCollectorArgs ⟨["https://s/"]⟩ "admin" c1Repo ⟨[]⟩ c1Req).1
      = Except.error (Err.notFound ("Unknown artifact " ++ "B"))
    ∧ (compileCollectorArgs ⟨["https://s/"]⟩ "admin" c1Repo ⟨[]⟩ c1Req).2.2
      = (compileLoop ⟨["https://s/"]⟩ "admin" c1Repo c1Req.allowCustomOverrides ⟨[]⟩
          (initialCollectorArgs c1Req) ["A"]).2.2 := by
  have h := c1_unknown_artifact_amended ⟨["https://s/"]⟩ "admin" c1Repo ⟨[]⟩ c1Req
    ["A"] "B" [] rfl
    (by
      intro n hn
      simp only [List.mem_singleton] at hn
      subst hn
      exact ⟨c1ArtA, rfl, rfl⟩)
    rfl
  exact ⟨h.1, h.2.1⟩

/-- Custom override artifact of the C5 scenario. -/
def c5Custom : Artifact := ⟨"Custom.X", ["qc"], []⟩

/-- Plain artifact of the C5 scenario. -/
def c5Plain : Artifact := ⟨"X", ["qp"], []⟩

/-- Repository of the C5 scenario: both "Custom.X" and "X" exist. -/
def c5Repo : Repository :=
  ⟨fun n =>
    if n = "Custom.X" then some c5Custom
    else if n = "X" then some c5Plain
    else none,
   fun _ _ _ => true⟩

/-- C5 request allowing custom overrides. -/
def c5ReqAllow : ArtifactCollectorArgs :=
  ⟨"C.1", ["X"], none, true, false, 0, 0, []⟩

/-- C5 request disallowing custom overrides. -/
def c5ReqPlain : ArtifactCollectorArgs :=
  ⟨"C.1", ["X"], none, false, false, 0, 0, []⟩

/-- C5: custom-override precedence.  For a request naming artifact `name`:
when overrides are allowed and `Custom.name` exists, resolution yields the
custom artifact and the compiled program's query plan is the custom
artifact's; when overrides are disallowed or no custom variant exists,
resolution yields the plain artifact and the compiled program's query plan
is the plain artifact's.  (Tool-free artifacts keep the conclusion about
the program exact.) -/
theorem c5_custom_override_precedence (config : Config) (principal : String)
    (repo : Repository) (inv : Inventory) (req : ArtifactCollectorArgs)
    (name : String)
    (hreq : req.artifacts = [name]) (hparams : req.parameters = none) :
    (∀ c : Artifact, repo.get ("Custom." ++ name) = some c →
      req.allowCustomOverrides = true →
      repo.checkAccess config c principal = true → c.tools = [] →
      resolveArtifact repo req.allowCustomOverrides name = some c
      ∧ ∃ prog, (compileCollectorArgs config principal repo inv req).1 = Except.ok prog
          ∧ prog.queries = c.queries)
    ∧ (∀ p : Artifact, repo.get name = some p →
        repo.checkAccess config p principal = true → p.tools = [] →
        (req.allowCustomOverrides = false ∨ repo.get ("Custom." ++ name) = none) →
        resolveArtifact repo req.allowCustomOverrides name = some p
        ∧ ∃ prog, (compileCollectorArgs config principal repo inv req).1 = Except.ok prog
            ∧ prog.queries = p.queries) := by
  constructor
  · intro c hc hallow hacc htools
    have hres : resolveArtifact repo req.allowCustomOverrides name = some c := by
      simp [resolveArtifact, hallow, hc]
    refine ⟨hres, repositoryCompile c (initialCollectorArgs req), ?_, by simp [repositoryCompile, initialCollectorArgs]⟩
    simp [compileCollectorArgs, hreq, compileLoop, hres, hacc, htools,
      ensureToolsDeclared, populateArtifactsVQLCollectorArgs,
      addArtifactCollectorArgs, hparams, getDependentTools,
      getDependentToolsAux, obfuscate, repositoryCompile, initialCollectorArgs]
  · intro p hp hacc htools hcases
    have hres : resolveArtifact repo req.allowCustomOverrides name = some p := by
      rcases hcases with hfalse | hnone
      · simp [resolveArtifact, hfalse, hp]
      · cases hallow : req.allowCustomOverrides <;>
          simp [resolveArtifact, hallow, hnone, hp]
    refine ⟨hres, repositoryCompile p (initialCollectorArgs req), ?_, by simp [repositoryCompile, initialCollectorArgs]⟩
    simp [compileCollectorArgs, hreq, compileLoop, hres, hacc, htools,
      ensureToolsDeclared, populateArtifactsVQLCollectorArgs,
      addArtifactCollectorArgs, hparams, getDependentTools,
      getDependentToolsAux, obfuscate, repositoryCompile, initialCollectorArgs]

/-- Witness for C5: with both "Custom.X" and "X" present, the program
compiled with overrides allowed carries `c5Custom`'s queries; with
overrides disallowed it carries `c5Plain`'s queries. -/
theorem c5_custom_override_precedence_witness :
    (resolveArtifact c5Repo c5ReqAllow.allowCustomOverrides "X" = some c5Custom
      ∧ ∃ prog, (compileCollectorArgs ⟨["https://s/"]⟩ "u" c5Repo ⟨[]⟩ c5ReqAllow).1
            = Except.ok prog
          ∧ prog.queries = c5Custom.queries)
    ∧ (resolveArtifact c5Repo c5ReqPlain.allowCustomOverrides "X" = some c5Plain
      ∧ ∃ prog, (compileCollectorArgs ⟨["https://s/"]⟩ "u" c5Repo ⟨[]⟩ c5ReqPlain).1
            = Except.ok prog
          ∧ prog.queries = c5Plain.queries) :=
  ⟨(c5_custom_override_precedence ⟨["https://s/"]⟩ "u" c5Repo ⟨[]⟩ c5ReqAllow "X"
      rfl rfl).1 c5Custom rfl rfl rfl rfl,
   (c5_custom_override_precedence ⟨["https://s/"]⟩ "u" c5Repo ⟨[]⟩ c5ReqPlain "X"
      rfl rfl).2 c5Plain rfl rfl rfl (Or.inl rfl)⟩

/-! ### Tool-metadata keys: injectivity and disjointness -/

lemma append_getLast_aux (x y : String) (c : Char)
    (hy : y.data.getLast? = some c) :
    (x ++ y).data.getLast? = some c := by
  rw [String.data_append, List.getLast?_append, hy]
  rfl

lemma toolKey_inj (p s : String) {a b : String}
    (h : p ++ a ++ s = p ++ b ++ s) : a = b := by
  have h2 : (p.data ++ a.data) ++ s.data = (p.data ++ b.data) ++ s.data := by
    have h1 := congrArg String.data h
    simpa [String.data_append] using h1
  have h3 := List.append_cancel_left (List.append_cancel_right h2)
  cases a
  cases b
  exact congrArg String.mk h3

lemma hashKey_inj {a b : String} (h : hashKey a = hashKey b) : a = b :=
  toolKey_inj "Tool_" "_HASH" h

lemma fileKey_inj {a b : String} (h : fileKey a = fileKey b) : a = b :=
  toolKey_inj "Tool_" "_FILENAME" h

lemma urlKey_inj {a b : String} (h : urlKey a = urlKey b) : a = b :=
  toolKey_inj "Tool_" "_URL" h

lemma hashKey_ne_fileKey (a b : String) : hashKey a ≠ fileKey b := by
  intro h
  have h2 := congrArg (fun s => s.data.getLast?) h
  simp only [hashKey, fileKey] at h2
  rw [append_getLast_aux ("Tool_" ++ a) "_HASH" 'H' (by decide),
    append_getLast_aux ("Tool_" ++ b) "_FILENAME" 'E' (by decide)] at h2
  exact absurd h2 (by decide)

lemma hashKey_ne_urlKey (a b : String) : hashKey a ≠ urlKey b := by
  intro h
  have h2 := congrArg (fun s => s.data.getLast?) h
  simp only [hashKey, urlKey] at h2
  rw [append_getLast_aux ("Tool_" ++ a) "_HASH" 'H' (by decide),
    append_getLast_aux ("Tool_" ++ b) "_URL" 'L' (by decide)] at h2
  exact absurd h2 (by decide)

lemma fileKey_ne_urlKey (a b : String) : fileKey a ≠ urlKey b := by
  intro h
  have h2 := congrArg (fun s => s.data.getLast?) h
  simp only [fileKey, urlKey] at h2
  rw [append_getLast_aux ("Tool_" ++ a) "_FILENAME" 'E' (by decide),
    append_getLast_aux ("Tool_" ++ b) "_URL" 'L' (by decide)] at h2
  exact absurd h2 (by decide)

/-- The three metadata keys one tool name contributes. -/
def toolKeys (t : String) : List String :=
  [hashKey t, fileKey t, urlKey t]

lemma toolKeys_flat_nodup :
    ∀ tools : List String, tools.Nodup → (tools.flatMap toolKeys).Nodup := by
  intro tools h
  induction tools with
  | nil => simp
  | cons t ts ih =>
    rcases List.nodup_cons.mp h with ⟨hnot, hts⟩
    rw [List.flatMap_cons, List.nodup_append]
    refine ⟨?_, ih hts, ?_⟩
    · simp [toolKeys, hashKey_ne_fileKey t t, hashKey_ne_urlKey t t,
        fileKey_ne_urlKey t t]
    · intro k hk hk2
      rw [List.mem_flatMap] at hk2
      obtain ⟨s, hs, hks⟩ := hk2
      have hst : s ≠ t := fun he => hnot (he ▸ hs)
      simp only [toolKeys, List.mem_cons, List.mem_singleton,
        List.not_mem_nil, or_false] at hk hks
      rcases hk with rfl | rfl | rfl <;> rcases hks with h2 | h2 | h2
      · exact hst (hashKey_inj h2.symm)
      · exact hashKey_ne_fileKey t s h2
      · exact hashKey_ne_urlKey t s h2
      · exact hashKey_ne_fileKey s t h2.symm
      · exact hst (fileKey_inj h2.symm)
      · exact fileKey_ne_urlKey t s h2
      · exact hashKey_ne_urlKey s t h2.symm
      · exact fileKey_ne_urlKey s t h2.symm
      · exact hst (urlKey_inj h2.symm)

/-! ### Characterising `getDependentTools` on fully known tools -/

/-- The three environment entries `AddToolDependency` appends for one
successfully resolved tool (empty when the lookup fails or no server URL
is configured); used to characterise `getDependentTools`. -/
def toolEnv (config : Config) (inv : Inventory) (t : String) : List VQLEnv :=
  match getToolInfo inv t, config.serverUrls with
  | some ti, u0 :: _ =>
    [VQLEnv.mk (hashKey ti.name) ti.hash,
     VQLEnv.mk (fileKey ti.name) ti.filename,
     VQLEnv.mk (urlKey ti.name)
       (if ti.serveLocally = false ∧ ti.url ≠ "" then ti.url
        else u0 ++ "public/" ++ ti.filestorePath)]
  | _, _ => []

lemma getToolInfo_name {inv : Inventory} {t : String} {ti : Tool}
    (h : getToolInfo inv t = some ti) : ti.name = t := by
  have h2 := List.find?_some h
  simpa using h2

lemma toolEnv_keys {config : Config} {inv : Inventory} {t : String} {ti : Tool}
    {u0 : String} {us : List String}
    (hti : getToolInfo inv t = some ti) (hurls : config.serverUrls = u0 :: us) :
    (toolEnv config inv t).map VQLEnv.key = toolKeys t := by
  have hn := getToolInfo_name hti
  simp [toolEnv, hti, hurls, toolKeys, hn]

lemma addToolDependency_known {config : Config} {inv : Inventory} {t : String}
    {ti : Tool} {u0 : String} {us : List String} (args : VQLCollectorArgs)
    (hti : getToolInfo inv t = some ti) (hurls : config.serverUrls = u0 :: us) :
    addToolDependency config inv t args
      = (none, { args with env := args.env ++ toolEnv config inv t }) := by
  simp [addToolDependency, toolEnv, hti, hurls]

lemma getDependentToolsAux_known (config : Config) (inv : Inventory)
    (u0 : String) (us : List String) (hurls : config.serverUrls = u0 :: us) :
    ∀ (ts : List String) (args : VQLCollectorArgs),
      (∀ t ∈ ts, ∃ ti, getToolInfo inv t = some ti) →
      getDependentToolsAux config inv args ts
        = (none, { args with env := args.env ++ ts.flatMap (toolEnv config inv) }) := by
  intro ts
  induction ts with
  | nil =>
    intro args _
    simp [getDependentToolsAux]
  | cons t ts ih =>
    intro args hts
    obtain ⟨ti, hti⟩ := hts t (List.mem_cons_self _ _)
    have step := addToolDependency_known args hti hurls
    simp only [getDependentToolsAux, step]
    rw [ih _ (fun s hs => hts s (List.mem_cons_of_mem _ hs))]
    simp [List.flatMap_cons, List.append_assoc]

lemma flatMap_toolEnv_keys {config : Config} {inv : Inventory}
    {u0 : String} {us : List String} (hurls : config.serverUrls = u0 :: us) :
    ∀ ts : List String, (∀ t ∈ ts, ∃ ti, getToolInfo inv t = some ti) →
      (ts.flatMap (toolEnv config inv)).map VQLEnv.key = ts.flatMap toolKeys := by
  intro ts
  induction ts with
  | nil => intro _; simp
  | cons t ts ih =>
    intro hts
    obtain ⟨ti, hti⟩ := hts t (List.mem_cons_self _ _)
    rw [List.flatMap_cons, List.flatMap_cons, List.map_append,
      toolEnv_keys hti hurls, ih (fun s hs => hts s (List.mem_cons_of_mem _ hs))]

/-! ### Duplicate-free tool references and inventory monotonicity -/

lemma addToolName_nodup (tools : List String) (n : String) (h : tools.Nodup) :
    (addToolName tools n).Nodup := by
  by_cases hmem : n ∈ tools
  · simpa [addToolName, hmem] using h
  · have h2 : (tools ++ [n]).Nodup := by
      rw [List.nodup_append]
      refine ⟨h, List.nodup_singleton n, ?_⟩
      intro x hx hxn
      rw [List.mem_singleton] at hxn
      exact hmem (hxn ▸ hx)
    simpa [addToolName, hmem] using h2

lemma mem_addToolName_elim {tools : List String} {n x : String}
    (h : x ∈ addToolName tools n) : x ∈ tools ∨ x = n := by
  by_cases hmem : n ∈ tools
  · rw [addToolName, if_pos hmem] at h
    exact Or.inl h
  · rw [addToolName, if_neg hmem] at h
    simpa using h

lemma addToolNames_nodup : ∀ (ns tools : List String), tools.Nodup →
    (addToolNames tools ns).Nodup := by
  intro ns
  induction ns with
  | nil => intro tools h; exact h
  | cons n ns ih =>
    intro tools h
    exact ih (addToolName tools n) (addToolName_nodup tools n h)

lemma mem_addToolNames_elim : ∀ (ns tools : List String) (x : String),
    x ∈ addToolNames tools ns → x ∈ tools ∨ x ∈ ns := by
  intro ns
  induction ns with
  | nil => intro tools x h; exact Or.inl h
  | cons n ns ih =>
    intro tools x h
    rcases ih (addToolName tools n) x h with h2 | h2
    · rcases mem_addToolName_elim h2 with h3 | h3
      · exact Or.inl h3
      · exact Or.inr (by simp [h3])
    · exact Or.inr (List.mem_cons_of_mem _ h2)

lemma getToolInfo_mono_addTool {inv : Inventory} {u : Tool} {t : String}
    {ti : Tool} (h : getToolInfo inv t = some ti) :
    getToolInfo (addTool inv u) t = some ti := by
  unfold getToolInfo at h
  show List.find? (fun x => x.name == t) (inv.tools ++ [u]) = some ti
  rw [List.find?_append, h]
  rfl

lemma getToolInfo_addTool_self {inv : Inventory} {u : Tool}
    (h : getToolInfo inv u.name = none) :
    getToolInfo (addTool inv u) u.name = some u := by
  unfold getToolInfo at h
  show List.find? (fun x => x.name == u.name) (inv.tools ++ [u]) = some u
  rw [List.find?_append, h]
  simp [List.find?]

lemma ensureToolsDeclared_mono : ∀ (ts : List Tool) (inv : Inventory)
    (t : String) (ti : Tool), getToolInfo inv t = some ti →
      getToolInfo (ensureToolsDeclared inv ts).1 t = some ti := by
  intro ts
  induction ts with
  | nil => intro inv t ti h; exact h
  | cons u ts ih =>
    intro inv t ti h
    cases hu : getToolInfo inv u.name with
    | some w =>
      simp only [ensureToolsDeclared, hu]
      exact ih inv t ti h
    | none =>
      simp only [ensureToolsDeclared, hu]
      exact ih (addTool inv u) t ti (getToolInfo_mono_addTool h)

lemma ensureToolsDeclared_declares : ∀ (ts : List Tool) (inv : Inventory),
    ∀ u ∈ ts, ∃ ti, getToolInfo (ensureToolsDeclared inv ts).1 u.name = some ti := by
  intro ts
  induction ts with
  | nil => intro inv u hu; exact absurd hu (List.not_mem_nil u)
  | cons v ts ih =>
    intro inv u hu
    rcases List.mem_cons.mp hu with rfl | hmem
    · cases hv : getToolInfo inv u.name with
      | some ti =>
        refine ⟨ti, ?_⟩
        simp only [ensureToolsDeclared, hv]
        exact ensureToolsDeclared_mono ts inv u.name ti hv
      | none =>
        refine ⟨u, ?_⟩
        simp only [ensureToolsDeclared, hv]
        exact ensureToolsDeclared_mono ts (addTool inv u) u.name u
          (getToolInfo_addTool_self hv)
    · cases hv : getToolInfo inv v.name with
      | some w =>
        simp only [ensureToolsDeclared, hv]
        exact ih inv u hmem
      | none =>
        simp only [ensureToolsDeclared, hv]
        exact ih (addTool inv v) u hmem

lemma addOrReplace_foldl_nil : ∀ ps : List VQLEnv,
    ps.foldl (fun e p => addOrReplaceParameter p e) [] = [] := by
  intro ps
  induction ps with
  | nil => rfl
  | cons p ps ih => simpa [addOrReplaceParameter] using ih

lemma addArtifactCollectorArgs_env_nil (args : VQLCollectorArgs)
    (req : ArtifactCollectorArgs) (h : args.env = []) :
    addArtifactCollectorArgs args req = args := by
  cases hp : req.parameters with
  | none => simp [addArtifactCollectorArgs, hp]
  | some ps =>
    simp only [addArtifactCollectorArgs, hp, h, addOrReplace_foldl_nil]
    rw [← h]

lemma compileLoop_ok (config : Config) (principal : String)
    (repo : Repository) (allow : Bool) :
    ∀ (names : List String) (inv : Inventory) (acc : VQLCollectorArgs),
      (∀ n ∈ names, ∃ a, resolveArtifact repo allow n = some a
          ∧ repo.checkAccess config a principal = true) →
      (∀ t ∈ acc.tools, ∃ ti, getToolInfo inv t = some ti) →
      ∃ acc2 inv2 regs,
        compileLoop config principal repo allow inv acc names
          = (Except.ok acc2, inv2, regs)
        ∧ acc2.env = acc.env
        ∧ (acc.tools.Nodup → acc2.tools.Nodup)
        ∧ (∀ t ∈ acc2.tools, ∃ ti, getToolInfo inv2 t = some ti) := by
  intro names
  induction names with
  | nil =>
    intro inv acc _ hinv
    exact ⟨acc, inv, [], rfl, rfl, fun h => h, hinv⟩
  | cons n names ih =>
    intro inv acc hres hinv
    obtain ⟨a, ha, hacc⟩ := hres n (List.mem_cons_self _ _)
    have hinv1 : ∀ t ∈ (repositoryCompile a acc).tools,
        ∃ ti, getToolInfo (ensureToolsDeclared inv a.tools).1 t = some ti := by
      intro t ht
      rcases mem_addToolNames_elim (a.tools.map Tool.name) acc.tools t ht with
        hold | hnew
      · obtain ⟨ti, hti⟩ := hinv t hold
        exact ⟨ti, ensureToolsDeclared_mono a.tools inv t ti hti⟩
      · rw [List.mem_map] at hnew
        obtain ⟨u, hu, rfl⟩ := hnew
        exact ensureToolsDeclared_declares a.tools inv u hu
    obtain ⟨acc2, inv2, regs, heq, henv, hnd, hfin⟩ :=
      ih (ensureToolsDeclared inv a.tools).1 (repositoryCompile a acc)
        (fun m hm => hres m (List.mem_cons_of_mem _ hm)) hinv1
    refine ⟨acc2, inv2, (ensureToolsDeclared inv a.tools).2 ++ regs,
      ?_, henv, ?_, hfin⟩
    · simp only [compileLoop, ha, hacc, if_true, heq]
    · intro h
      exact hnd (addToolNames_nodup (a.tools.map Tool.name) acc.tools h)

lemma compileCollectorArgs_eq (config : Config) (principal : String)
    (repo : Repository) (inv : Inventory) (req : ArtifactCollectorArgs)
    {acc2 : VQLCollectorArgs} {inv2 : Inventory} {regs : List Tool}
    (heq : compileLoop config principal repo req.allowCustomOverrides inv
        (initialCollectorArgs req) req.artifacts = (Except.ok acc2, inv2, regs)) :
    compileCollectorArgs config principal repo inv req
      = (match getDependentTools config inv2
            (addArtifactCollectorArgs
              (populateArtifactsVQLCollectorArgs acc2) req) with
         | (some e, _) => (Except.error e, inv2, regs)
         | (none, acc3) => (Except.ok (obfuscate acc3), inv2, regs)) := by
  unfold compileCollectorArgs
  rw [heq]

/-! ### C7 -/

/-- C7: for every request naming only known, accessible artifacts (every
name resolves and passes the access check) and with at least one server
URL configured, `CompileCollectorArgs` succeeds with a program whose
referenced-tools list is duplicate-free and whose environment consists of
exactly one HASH/FILENAME/URL triple per distinct tool referenced â each
of the three keys of each referenced tool occurs exactly once â with no
duplicate environment keys. -/
theorem c7_tool_triples (config : Config) (principal : String)
    (repo : Repository) (inv : Inventory) (req : ArtifactCollectorArgs)
    (u0 : String) (us : List String)
    (hurls : config.serverUrls = u0 :: us)
    (hres : ∀ n ∈ req.artifacts, ∃ a,
        resolveArtifact repo req.allowCustomOverrides n = some a
        ∧ repo.checkAccess config a principal = true) :
    ∃ prog,
      (compileCollectorArgs config principal repo inv req).1 = Except.ok prog
      ∧ prog.tools.Nodup
      ∧ prog.env.map VQLEnv.key = prog.tools.flatMap toolKeys
      ∧ (prog.env.map VQLEnv.key).Nodup
      ∧ ∀ t ∈ prog.tools,
          (prog.env.map VQLEnv.key).count (hashKey t) = 1
          ∧ (prog.env.map VQLEnv.key).count (fileKey t) = 1
          ∧ (prog.env.map VQLEnv.key).count (urlKey t) = 1 := by
  obtain ⟨acc2, inv2, regs, heq, henv, hnd, hfin⟩ :=
    compileLoop_ok config principal repo req.allowCustomOverrides req.artifacts
      inv (initialCollectorArgs req) hres (by simp [initialCollectorArgs])
  have henv2 : acc2.env = [] := by simpa [initialCollectorArgs] using henv
  have hnd2 : acc2.tools.Nodup := hnd (by simp [initialCollectorArgs])
  have hadd : addArtifactCollectorArgs acc2 req = acc2 :=
    addArtifactCollectorArgs_env_nil acc2 req henv2
  have hgdt2 : getDependentTools config inv2 acc2
      = (none, { acc2 with
          env := acc2.env ++ acc2.tools.flatMap (toolEnv config inv2) }) :=
    getDependentToolsAux_known config inv2 u0 us hurls acc2.tools acc2 hfin
  have hkeyseq :
      ((acc2.env ++ acc2.tools.flatMap (toolEnv config inv2)).map VQLEnv.key)
        = acc2.tools.flatMap toolKeys := by
    rw [henv2]
    simpa using flatMap_toolEnv_keys hurls acc2.tools hfin
  have hnodup :
      ((acc2.env ++ acc2.tools.flatMap (toolEnv config inv2)).map
        VQLEnv.key).Nodup := by
    rw [hkeyseq]
    exact toolKeys_flat_nodup acc2.tools hnd2
  refine ⟨{ acc2 with
      env := acc2.env ++ acc2.tools.flatMap (toolEnv config inv2) },
    ?_, hnd2, hkeyseq, hnodup, ?_⟩
  · rw [compileCollectorArgs_eq config principal repo inv req heq]
    simp only [populateArtifactsVQLCollectorArgs, hadd, hgdt2, obfuscate]
  · intro t ht
    have hmem : ∀ k ∈ toolKeys t,
        k ∈ (acc2.env ++ acc2.tools.flatMap (toolEnv config inv2)).map
          VQLEnv.key := by
      intro k hk
      rw [hkeyseq, List.mem_flatMap]
      exact ⟨t, ht, hk⟩
    exact ⟨List.count_eq_one_of_mem hnodup (hmem _ (by simp [toolKeys])),
      List.count_eq_one_of_mem hnodup (hmem _ (by simp [toolKeys])),
      List.count_eq_one_of_mem hnodup (hmem _ (by simp [toolKeys]))⟩

/-- Tool shared by the two artifacts of the C7 witness scenario,
initially unknown to the inventory. -/
def c7Tool : Tool := ⟨"t", "h", "f", "", true, "p"⟩

/-- First artifact of the C7 witness scenario, declaring tool "t". -/
def c7ArtA : Artifact := ⟨"A", ["q1"], [c7Tool]⟩

/-- Second artifact of the C7 witness scenario, also declaring tool "t". -/
def c7ArtB : Artifact := ⟨"B", ["q2"], [c7Tool]⟩

/-- Repository of the C7 witness scenario: both artifacts known and
accessible. -/
def c7Repo : Repository :=
  ⟨fun n =>
    if n = "A" then some c7ArtA
    else if n = "B" then some c7ArtB
    else none,
   fun _ _ _ => true⟩

/-- Request of the C7 witness scenario. -/
def c7Req : ArtifactCollectorArgs :=
  ⟨"C.1", ["A", "B"], none, false, false, 0, 0, []⟩

/-- Witness for C7 at a concrete scenario in which both known artifacts
declare the same tool "t": compilation succeeds, the tool is referenced
once, and the environment holds exactly one triple with pairwise distinct
keys. -/
theorem c7_tool_triples_witness :
    ∃ prog,
      (compileCollectorArgs ⟨["https://s/"]⟩ "u" c7Repo ⟨[]⟩ c7Req).1
        = Except.ok prog
      ∧ prog.tools.Nodup
      ∧ prog.env.map VQLEnv.key = prog.tools.flatMap toolKeys
      ∧ (prog.env.map VQLEnv.key).Nodup
      ∧ ∀ t ∈ prog.tools,
          (prog.env.map VQLEnv.key).count (hashKey t) = 1
          ∧ (prog.env.map VQLEnv.key).count (fileKey t) = 1
          ∧ (prog.env.map VQLEnv.key).count (urlKey t) = 1 :=
  c7_tool_triples ⟨["https://s/"]⟩ "u" c7Repo ⟨[]⟩ c7Req "https://s/" [] rfl
    (by
      intro n hn
      have hn2 : n = "A" ∨ n = "B" := by simpa [c7Req] using hn
      rcases hn2 with rfl | rfl
      · exact ⟨c7ArtA, rfl, rfl⟩
      · exact ⟨c7ArtB, rfl, rfl⟩)

end Launcher
